import Mathlib

/-!
Verification development for the pygpc grid / adaptive-refinement core.

The definitions below are a shallow embedding of the Python sources
`pygpc/Grid.py` and `pygpc/Algorithm.py`.  Machine floats are modelled by
exact rationals (`ℚ`), numpy arrays by lists, the numpy global random state
by an explicit stream of scalar draws, and Python exceptions by `Except`.
External numerical collaborators that are not part of the repository
(scipy's `ifft`, `np.linalg.eig`, the model evaluator, the least-squares
solver) are abstracted as oracle parameters; everything that the claims
depend on is translated from the source.
-/
/-! ## Quadrature rules (`pygpc/Grid.py`, class `Grid`) -/
/-- The node counts accepted by `Grid.get_quadrature_patterson_1d`
(`Grid.py` lines 322-484). -/
def pattersonValidCounts : List ℕ := [1, 3, 7, 15, 31]

/-- Error raised by `Grid.get_quadrature_patterson_1d` for an unsupported
node count (`Grid.py` lines 477-479: a message is printed and
`NotImplementedError` is raised). -/
def pattersonErrMsg : String := "NotImplementedError: Number of points does not match Gauss-Patterson quadrature rule."

/-- `Grid.get_quadrature_patterson_1d(n)` (`Grid.py` lines 322-484): the
fixed tabulated nested Gauss-Patterson knots and weights for
`n = 1, 3, 7, 15, 31`; every other node count raises. The decimal
literals are transcribed verbatim from the source as exact rationals. -/
def get_quadrature_patterson_1d (n : ℕ) : Except String (List ℚ × List ℚ) :=
  if n = 1 then
    .ok ([0.0], [2.0])
  else if n = 3 then
    .ok ([-0.77459666924148337704, 0.0, 0.77459666924148337704],
         [0.555555555555555555556, 0.888888888888888888889, 0.555555555555555555556])
  else if n = 7 then
    .ok ([-0.96049126870802028342, -0.77459666924148337704, -0.43424374934680255800,
          0.0,
          0.43424374934680255800, 0.77459666924148337704, 0.96049126870802028342],
         [0.104656226026467265194, 0.268488089868333440729, 0.401397414775962222905,
          0.450916538658474142345,
          0.401397414775962222905, 0.268488089868333440729, 0.104656226026467265194])
  else if n = 15 then
    .ok ([-0.99383196321275502221, -0.96049126870802028342, -0.88845923287225699889,
          -0.77459666924148337704, -0.62110294673722640294, -0.43424374934680255800,
          -0.22338668642896688163, 0.0, 0.22338668642896688163,
          0.43424374934680255800, 0.62110294673722640294, 0.77459666924148337704,
          0.88845923287225699889, 0.96049126870802028342, 0.99383196321275502221],
         [0.0170017196299402603390, 0.0516032829970797396969, 0.0929271953151245376859,
          0.134415255243784220360, 0.171511909136391380787, 0.200628529376989021034,
          0.219156858401587496404, 0.225510499798206687386, 0.219156858401587496404,
          0.200628529376989021034, 0.171511909136391380787, 0.134415255243784220360,
          0.0929271953151245376859, 0.0516032829970797396969, 0.0170017196299402603390])
  else if n = 31 then
    .ok ([-0.99909812496766759766, -0.99383196321275502221, -0.98153114955374010687,
          -0.96049126870802028342, -0.92965485742974005667, -0.88845923287225699889,
          -0.83672593816886873550, -0.77459666924148337704, -0.70249620649152707861,
          -0.62110294673722640294, -0.53131974364437562397, -0.43424374934680255800,
          -0.33113539325797683309, -0.22338668642896688163, -0.11248894313318662575,
          0.0,
          0.11248894313318662575, 0.22338668642896688163, 0.33113539325797683309,
          0.43424374934680255800, 0.53131974364437562397, 0.62110294673722640294,
          0.70249620649152707861, 0.77459666924148337704, 0.83672593816886873550,
          0.88845923287225699889, 0.92965485742974005667, 0.96049126870802028342,
          0.98153114955374010687, 0.99383196321275502221, 0.99909812496766759766],
         [0.00254478079156187441540, 0.00843456573932110624631, 0.0164460498543878109338,
          0.0258075980961766535646, 0.0359571033071293220968, 0.0464628932617579865414,
          0.0569795094941233574122, 0.0672077542959907035404, 0.0768796204990035310427,
          0.0857559200499903511542, 0.0936271099812644736167, 0.100314278611795578771,
          0.105669893580234809744, 0.109578421055924638237, 0.111956873020953456880,
          0.112755256720768691607,
          0.111956873020953456880, 0.109578421055924638237, 0.105669893580234809744,
          0.100314278611795578771, 0.0936271099812644736167, 0.0857559200499903511542,
          0.0768796204990035310427, 0.0672077542959907035404, 0.0569795094941233574122,
          0.0464628932617579865414, 0.0359571033071293220968, 0.0258075980961766535646,
          0.0164460498543878109338, 0.00843456573932110624631, 0.00254478079156187441540])
  else
    .error pattersonErrMsg

/-! ### Clenshaw-Curtis: numpy array-shape semantics

`Grid.get_quadrature_clenshaw_curtis_1d` (`Grid.py` lines 157-192) performs,
for `n > 1`, the following numpy array operations before handing the array
to scipy's `ifft` (an external collaborator):

    n = n - 1
    c = np.zeros((n, 2))
    k = 2 * (1 + np.arange(np.floor(n / 2)))
    c[::2, 0] = 2 / np.hstack((1, 1 - k * k))
    c[1, 1] = -n
    v = np.vstack((c, np.flipud(c[1:n, :])))

The slice assignment `c[::2, 0] = ...` requires the two sides to have the
same length (`ceil(n/2)` on the left, `1 + floor(n/2)` on the right) or
numpy raises `ValueError`; the element assignment `c[1, 1] = -n` requires
`n >= 2` or numpy raises `IndexError`.  The model below reproduces these
checked array operations exactly and returns the rows of `v`; the
subsequent `ifft` call and the reads from its result are outside the
repository. -/
/-- Assign `vals` to the stride-2 slice `tgt[::2]`, as numpy does:
the assignment is refused with a `ValueError` unless the number of slice
positions equals the number of values. -/
def strideTwoAssign (tgt : List ℚ) (vals : List ℚ) : Except String (List ℚ) :=
  if (tgt.length + 1) / 2 ≠ vals.length then
    .error "ValueError: could not broadcast input array"
  else
    .ok ((tgt.enum.map (fun xi => if xi.1 % 2 = 0 then vals.getD (xi.1 / 2) xi.2 else xi.2)))

/-- Assign `v` to `l[i]`, as numpy does: `IndexError` when `i` is out of
bounds. -/
def indexAssign (l : List ℚ) (i : ℕ) (v : ℚ) : Except String (List ℚ) :=
  if i < l.length then .ok (l.set i v)
  else .error "IndexError: index out of bounds"

/-- The checked numpy array operations of
`Grid.get_quadrature_clenshaw_curtis_1d` (`Grid.py` lines 157-192) up to
the external `ifft` call, returning the rows of `v` (pairs of the two
columns).  `n = 1` returns the trivial rule directly (lines 178-180). -/
def clenshaw_curtis_array_prep (n : ℕ) : Except String (List (ℚ × ℚ)) := do
  if n = 1 then
    pure [(0.0, 2.0)]
  else
    let m := n - 1
    -- k = 2 * (1 + np.arange(np.floor(m / 2)))
    let k : List ℚ := (List.range (m / 2)).map (fun j => 2 * (1 + (j : ℚ)))
    -- c[::2, 0] = 2 / np.hstack((1, 1 - k * k))
    let rhs : List ℚ := ((1 : ℚ) :: k.map (fun x => 1 - x * x)).map (fun d => 2 / d)
    let c0 ← strideTwoAssign (List.replicate m 0) rhs
    -- c[1, 1] = -m
    let c1 ← indexAssign (List.replicate m 0) 1 (-(m : ℚ))
    let c := c0.zip c1
    -- v = np.vstack((c, np.flipud(c[1:m, :])))
    pure (c ++ ((c.drop 1).take (m - 1)).reverse)

/-! ### TensorGrid dispatch (`Grid.py`, `TensorGrid.__init__`, lines 566-648) -/
/-- The `grid_type` names recognized by the dispatch in
`TensorGrid.__init__` (`Grid.py` lines 594-614). -/
def knownGridTypes : List String := ["jacobi", "hermite", "clenshaw_curtis", "fejer2", "patterson"]

/-- One dimension of the knot/weight dispatch of `TensorGrid.__init__`
(`Grid.py` lines 594-619).  `rules` abstracts the five 1-D quadrature
routines (their numerics involve external eigensolvers / ifft).  For an
unrecognized name the source executes

    knots = []
    weights = []
    AttributeError("Specified grid_type ... not implemented!")

-- the `AttributeError` is constructed as a bare expression and never
raised, so the empty knots and weights are used. -/
def tensorGridKnots1d (rules : String → ℕ → Except String (List ℚ × List ℚ))
    (grid_type : String) (n_dim : ℕ) : Except String (List ℚ × List ℚ) :=
  if grid_type ∈ knownGridTypes then
    rules grid_type n_dim
  else
    .ok ([], [])

/-- Cartesian product of per-dimension knot lists
(`sklearn.utils.extmath.cartesian`, used at `Grid.py` line 625): all
combinations, first dimension varying slowest. -/
def cartesianList : List (List ℚ) → List (List ℚ)
  | [] => [[]]
  | xs :: rest => xs.flatMap (fun x => (cartesianList rest).map (fun row => x :: row))

/-- Result of the `TensorGrid` construction that the claims mention:
the per-dimension knot lists and the number of grid points. -/
structure TensorGridResult where
  knots_dim_list : List (List ℚ)
  n_grid : ℕ
deriving DecidableEq

/-- `TensorGrid.__init__` (`Grid.py` lines 566-648), restricted to the
parts the claim is about: the per-dimension dispatch to the 1-D rules and
the tensor-product grid size `n_grid = len(cartesian(knots_dim_list))`.
Exceptions raised inside the dispatch propagate. -/
def tensorGridInit (rules : String → ℕ → Except String (List ℚ × List ℚ))
    (grid_type : List String) (n_dim : List ℕ) : Except String TensorGridResult := do
  let knots ← (grid_type.zip n_dim).mapM (fun gt => tensorGridKnots1d rules gt.1 gt.2)
  pure { knots_dim_list := knots.map Prod.fst,
         n_grid := (cartesianList (knots.map Prod.fst)).length }

/-! ## Random grids (`pygpc/Grid.py`, class `RandomGrid`, lines 983-1082) -/
/-- One random input dimension: its distribution family with the shape /
limit data used by `RandomGrid` and by the normalization transforms
(`Grid.py` lines 486-547). -/
inductive PdfSpec where
  | beta (p q lo hi : ℚ)
  | normal (mu sigma : ℚ)
deriving DecidableEq

/-- The numpy global random state: a stream of successive scalar draws and
the position of the next draw.  `np.random.beta(...)` / `np.random.normal(...)`
consume scalars from this stream in order; what matters for the claims is
the consumption order, not the distribution shape of each scalar. -/
structure NpRandom where
  stream : ℕ → ℚ
  pos : ℕ

/-- Advance the random state by `k` consumed scalars. -/
def npAdvance (r : NpRandom) (k : ℕ) : NpRandom := ⟨r.stream, r.pos + k⟩

/-- The value stored in `coords_norm` for one raw draw `x`
(`Grid.py` lines 1026-1032 and 1036-1042): a beta draw is mapped by
`* 2.0 - 1`, a standard-normal draw is stored as is. -/
def sampleTransform : PdfSpec → ℚ → ℚ
  | .beta _ _ _ _, x => 2 * x - 1
  | .normal _ _, x => x

/-- `Grid.get_denormalized_coordinates` for one coordinate
(`Grid.py` lines 502-515). -/
def denormCoord : PdfSpec → ℚ → ℚ
  | .beta _ _ lo hi, x => (x + 1) / 2 * (hi - lo) + lo
  | .normal mu sigma, x => x * sigma + mu

/-- The dimension-`d` entry of a problem's pdf list (entries are only read
for `d < pdfs.length`). -/
def pdfAt (pdfs : List PdfSpec) (d : ℕ) : PdfSpec := pdfs.getD d (.normal 0 1)

/-- Point-by-point generation (`RandomGrid.__init__`, `Grid.py` lines
1022-1032, the seeded branch): one scalar at a time, outer loop over grid
points, inner loop over dimensions, so entry `(i, d)` consumes the
`i * dim + d`-th scalar of the stream. -/
def pointwiseCoordsNorm (pdfs : List PdfSpec) (n : ℕ) (r : NpRandom) : List (List ℚ) :=
  (List.range n).map (fun i =>
    (List.range pdfs.length).map (fun d =>
      sampleTransform (pdfAt pdfs d) (r.stream (r.pos + i * pdfs.length + d))))

/-- Whole-block generation (`RandomGrid.__init__`, `Grid.py` lines
1034-1042, the unseeded branch): one block of `n` scalars per dimension,
so entry `(i, d)` consumes the `d * n + i`-th scalar of the stream. -/
def blockwiseCoordsNorm (pdfs : List PdfSpec) (n : ℕ) (r : NpRandom) : List (List ℚ) :=
  (List.range n).map (fun i =>
    (List.range pdfs.length).map (fun d =>
      sampleTransform (pdfAt pdfs d) (r.stream (r.pos + d * n + i))))

/-- Python truthiness of `self.seed` in `if self.seed:` (`Grid.py` lines
1018 and 1022): `None` and `0` are falsy, every other number is truthy. -/
def truthySeed : Option ℚ → Bool
  | none => false
  | some s => decide (s ≠ 0)

/-- `coords_norm` generation of `RandomGrid.__init__` (`Grid.py` lines
1016-1042) together with the resulting random state.  `seedStream`
abstracts `np.random.seed`: the stream the generator produces after being
seeded with a given value.  When the seed is truthy the generator is
re-seeded and the grid is built point by point; otherwise the ambient
state is consumed block-wise. -/
def randomGridCoordsNorm (seedStream : ℚ → ℕ → ℚ) (pdfs : List PdfSpec) (n : ℕ)
    (seed : Option ℚ) (ambient : NpRandom) : List (List ℚ) × NpRandom :=
  if truthySeed seed then
    let r : NpRandom := ⟨seedStream (seed.getD 0), 0⟩
    (pointwiseCoordsNorm pdfs n r, npAdvance r (n * pdfs.length))
  else
    (blockwiseCoordsNorm pdfs n ambient, npAdvance ambient (n * pdfs.length))

/-- The mutable state of a `RandomGrid` instance: parallel arrays of
denormalized coordinates, normalized coordinates and point ids, the point
count, and the supply counter for fresh ids (uuid4 values are modelled as
successive naturals). -/
structure RandomGridState where
  coords : List (List ℚ)
  coords_norm : List (List ℚ)
  coords_id : List ℕ
  n_grid : ℕ
  uuidCtr : ℕ
deriving DecidableEq

/-- Row-wise `get_denormalized_coordinates` (`Grid.py` line 1045). -/
def denormRows (pdfs : List PdfSpec) (rows : List (List ℚ)) : List (List ℚ) :=
  rows.map (fun row => (pdfs.zip row).map (fun z => denormCoord z.1 z.2))

/-- `RandomGrid.__init__` (`Grid.py` lines 997-1048): generate
`coords_norm`, denormalize to `coords`, and draw one fresh id per point. -/
def mkRandomGrid (seedStream : ℚ → ℕ → ℚ) (pdfs : List PdfSpec) (n : ℕ)
    (seed : Option ℚ) (ambient : NpRandom) (uuid0 : ℕ) : RandomGridState × NpRandom :=
  let cn := randomGridCoordsNorm seedStream pdfs n seed ambient
  ({ coords := denormRows pdfs cn.1,
     coords_norm := cn.1,
     coords_id := (List.range n).map (fun i => uuid0 + i),
     n_grid := n,
     uuidCtr := uuid0 + n }, cn.2)

/-- `RandomGrid.extend_random_grid` (`Grid.py` lines 1050-1081).  The
third component collects the warnings actually emitted to the user: the
`else` branch evaluates `Warning("No samples added to grid ...")` as a
bare expression and discards the object, so nothing is emitted and
nothing is raised in either branch. -/
def extend_random_grid (seedStream : ℚ → ℕ → ℚ) (pdfs : List PdfSpec)
    (g : RandomGridState) (n_grid_new : ℕ) (seed : Option ℚ) (ambient : NpRandom) :
    RandomGridState × NpRandom × List String :=
  let n_grid_add : ℤ := (n_grid_new : ℤ) - (g.n_grid : ℤ)
  if 0 < n_grid_add then
    let ng := mkRandomGrid seedStream pdfs n_grid_add.toNat seed ambient g.uuidCtr
    ({ coords := g.coords ++ ng.1.coords,
       coords_norm := g.coords_norm ++ ng.1.coords_norm,
       coords_id := g.coords_id ++ ng.1.coords_id,
       n_grid := (g.coords ++ ng.1.coords).length,
       uuidCtr := ng.1.uuidCtr }, ng.2, [])
  else
    (g, ambient, [])

/-- The stream `0, 1, 2, ...` as a concrete ambient random state. -/
def countingState : NpRandom := ⟨fun t => (t : ℚ), 0⟩

/-- A concrete seeding function for counterexamples and witnesses: seeding
with `s` yields the stream `s + 100, s + 101, ...`. -/
def demoSeedStream (s : ℚ) (t : ℕ) : ℚ := s + 100 + (t : ℚ)

/-- A concrete two-dimensional problem (two standard-normal inputs). -/
def twoNormals : List PdfSpec := [.normal 0 1, .normal 0 1]

/-- A concrete two-point one-dimensional random grid. -/
def demoGrid : RandomGridState :=
  { coords := [[5], [7]], coords_norm := [[0], [1]], coords_id := [10, 11],
    n_grid := 2, uuidCtr := 12 }

/-! ## Sparse-grid merge (`Grid.py`, `SparseGrid.calc_coords_weights`, lines 929-980) -/
/-- `np.abs` on one scalar. -/
def ratAbs (x : ℚ) : ℚ := if x < 0 then -x else x

/-- Row-wise L1 distance `np.sum(np.abs(a - b), axis=1)` used to detect
coincident points (`Grid.py` line 946). -/
def l1dist (p q : List ℚ) : ℚ := ((p.zip q).map (fun z => ratAbs (z.1 - z.2))).sum

/-- `epsilon_k = 1E-6` (`Grid.py` line 937): absolute tolerance for
coincident points. -/
def epsilonK : ℚ := 1 / 1000000

/-- `epsilon_w = 1E-8 / self.problem.dim` (`Grid.py` line 961): weight
magnitude threshold. -/
def epsilonW (dim : ℕ) : ℚ := (1 / 100000000) / (dim : ℚ)

/-- One pass of the merge loop of `SparseGrid.calc_coords_weights`
(`Grid.py` lines 942-949) per fuel unit: while some point is unassigned,
take the first unassigned point as the representative of a new cluster,
assign to the cluster every unassigned point within `epsilon_k` (L1) of
it, and give the cluster the sum of its members' weights.  Every pass
assigns at least the representative, so `fuel = length of the list`
always suffices. -/
def mergePointsAux : ℕ → List (List ℚ × ℚ) → List (List ℚ × ℚ)
  | _, [] => []
  | 0, _ :: _ => []
  | fuel + 1, pw :: rest =>
    (pw.1, pw.2 + ((rest.filter (fun q => decide (l1dist q.1 pw.1 < epsilonK))).map Prod.snd).sum) ::
      mergePointsAux fuel (rest.filter (fun q => !decide (l1dist q.1 pw.1 < epsilonK)))

/-- The merge loop of `SparseGrid.calc_coords_weights` (`Grid.py` lines
935-957). -/
def mergePoints (l : List (List ℚ × ℚ)) : List (List ℚ × ℚ) :=
  mergePointsAux l.length l

/-- `SparseGrid.calc_coords_weights` after the sub-grid concatenation
(`Grid.py` lines 935-963): merge coincident points, keep only points with
`np.abs(weights) > epsilon_w`, and divide the surviving weights by
`2 ** dim`.  (The subsequent rescaling/denormalization, lines 966-980,
changes coordinates dimension-wise and is not part of the claim.) -/
def calc_coords_weights (dim : ℕ) (l : List (List ℚ × ℚ)) : List (List ℚ × ℚ) :=
  ((mergePoints l).filter (fun q => decide (epsilonW dim < ratAbs q.2))).map
    (fun q => (q.1, q.2 / 2 ^ dim))

/-- The distinct point coordinates of a list in order of first occurrence
(the order in which the merge loop discovers cluster representatives). -/
def firstKeys : List (List ℚ) → List (List ℚ)
  | [] => []
  | a :: t => a :: firstKeys (t.filter (fun b => decide (b ≠ a)))
termination_by l => l.length
decreasing_by
  simp only [List.length_cons]
  exact Nat.lt_succ_of_le (List.length_filter_le _ _)

/-- Total weight that a coordinate `p` carries in a point list. -/
def weightAt (l : List (List ℚ × ℚ)) (p : List ℚ) : ℚ :=
  ((l.filter (fun q => decide (q.1 = p))).map Prod.snd).sum

/-! ## The adaptive refinement loop (`pygpc/Algorithm.py`, `RegAdaptive.run`, lines 1870-2169)

The loop couples the gPC basis, the random grid and external collaborators
(the model evaluator `com.run`, the solver `gpc.solve`, the error estimate
`gpc.validate`).  The collaborators' numerics are abstracted: `validate k`
is the error value returned by the `k`-th call to `gpc.validate` (which,
per the spec, appends the value to the error history `gpc.error`), and
`gen order` abstracts `get_multi_indices_max_order(dim, order,
order_max_norm)` from `pygpc/misc.py` (whose file is not part of the
staged sources).  Everything else — the state, the branch conditions and
the update order of the three nested loops — is translated line by line.
The model fixes the configuration `gradient_enhanced = False` and
`fn_results = None` (persistence to disk is out of scope); the inner
adaptive-sampling loop, whose termination depends on the oracle values,
runs on explicit fuel, `none` marking a run that would not have
terminated. -/
/-- The options of `RegAdaptive` read by `run` (`Algorithm.py` lines
1800-1868). -/
structure AdaptiveOptions where
  epsQ : ℚ
  order_start : ℕ
  order_end : ℕ
  interaction_order : ℕ
  matrixRatioQ : ℚ
  adaptive_sampling : Bool
deriving DecidableEq

/-- `delta_eps_target = 1e-1` (`Algorithm.py` line 1996). -/
def deltaEpsTarget : ℚ := 1 / 10

/-- `delta_samples = 5e-2` (`Algorithm.py` line 1998). -/
def deltaSamples : ℚ := 1 / 20

/-- The mutable state threaded through `RegAdaptive.run`.  `res` is the
number of rows of the results array when it has been assigned (Python
leaves the local `res` unbound until the first simulation ran).  `extLog`
is instrumentation recording each basis extension as the pair (order at
extension, multi-indices added); it is written exactly where
`gpc.basis.extend_basis(b_added)` runs and read by nothing in the
model. -/
structure AdaptiveState where
  eps : ℚ
  i_grid : ℕ
  first_iter : Bool
  extended_basis : Bool
  add_samples : Bool
  delta_eps : ℚ
  eps_ref : ℚ
  basis : List (List ℕ)
  n_grid : ℕ
  interaction_order_current : ℕ
  res : Option ℕ
  errorHist : List ℚ
  vcount : ℕ
  extLog : List (ℕ × List (List ℕ))
deriving DecidableEq

/-- Number of nonzero entries of a multi-index:
`np.sum(multi_indices_all_new > 0, axis=1)` (`Algorithm.py` line 1966). -/
def countNonzero (a : List ℕ) : ℕ := (a.filter (fun x => decide (x ≠ 0))).length

/-- `int(np.ceil(x))` for the nonnegative quantities of the loop. -/
def ceilToNat (x : ℚ) : ℕ := (Int.ceil x).toNat

/-- The new target sample size of one pass of the adaptive-sampling loop
(`Algorithm.py` lines 2005-2014): when the basis was just extended, retry
with the current grid size; otherwise (past the first iteration) grow by
`ceil(n_grid + delta_samples * n_basis)`; with adaptive sampling disabled,
`ceil(n_basis * matrix_ratio)`. -/
def nGridNew (opts : AdaptiveOptions) (st : AdaptiveState) : ℕ :=
  if st.extended_basis && opts.adaptive_sampling then
    st.n_grid
  else if opts.adaptive_sampling && !st.first_iter then
    ceilToNat ((st.n_grid : ℚ) + deltaSamples * (st.basis.length : ℚ))
  else
    ceilToNat ((st.basis.length : ℚ) * opts.matrixRatioQ)

/-- Grid size after `extend_random_grid(n_grid_new)` (`Grid.py` lines
1064-1081): points are only ever added. -/
def extendGridTo (cur target : ℕ) : ℕ := if cur < target then target else cur

/-- Last entry of the error history (`gpc.error[-1]`). -/
def histLast (l : List ℚ) : ℚ := l.getLast?.getD 0

/-- Second-to-last entry of the error history (`gpc.error[-2]`); read by
the source only when at least two validations have happened. -/
def histPrev (l : List ℚ) : ℚ := l.dropLast.getLast?.getD 0

/-- Guard of `while add_samples and delta_eps > delta_eps_target and eps >
self.options["eps"]` (`Algorithm.py` line 2000). -/
def samplingGuard (opts : AdaptiveOptions) (st : AdaptiveState) : Bool :=
  st.add_samples && decide (deltaEpsTarget < st.delta_eps) && decide (opts.epsQ < st.eps)

/-- One pass of the body of the adaptive-sampling loop (`Algorithm.py`
lines 2002-2092).  Returns the new state and whether the pass ended in a
`break`.  `v` is the `gpc.validate` oracle. -/
def samplingBody (opts : AdaptiveOptions) (v : ℕ → ℚ) (st : AdaptiveState) :
    AdaptiveState × Bool :=
  -- if not adaptive_sampling: add_samples = False
  let st := if !opts.adaptive_sampling then { st with add_samples := false } else st
  let ngn := nGridNew opts st
  -- if i_grid < n_grid_new or extended_basis:
  if st.i_grid < ngn || st.extended_basis then
    -- if i_grid < n_grid_new: extend grid, run simulations on the new rows
    let st1 := if st.i_grid < ngn then
        let ng2 := extendGridTo st.n_grid ngn
        { st with n_grid := ng2, res := some ng2, i_grid := ng2 }
      else st
    -- gpc.update_gpc_matrix(); gpc.solve(...); eps = gpc.validate(...)
    let e := v st1.vcount
    let st2 := { st1 with eps := e, errorHist := st1.errorHist ++ [e], vcount := st1.vcount + 1 }
    -- if extended_basis: eps_ref = eps else: delta_eps = |(error[-1]-error[-2])/eps_ref|
    let st3 := if st2.extended_basis then { st2 with eps_ref := e }
      else { st2 with delta_eps := ratAbs ((histLast st2.errorHist - histPrev st2.errorHist) / st2.eps_ref) }
    -- if not first_iter and extended_basis and error[-1] < error[-2]: break
    if !st3.first_iter && st3.extended_basis && decide (histLast st3.errorHist < histPrev st3.errorHist) then
      (st3, true)
    else
      let st4 := { st3 with extended_basis := false, first_iter := false }
      -- if not adaptive_sampling: break
      if !opts.adaptive_sampling then (st4, true) else (st4, false)
  else
    -- guard unchanged: the Python loop would spin here forever
    (st, false)

/-- The adaptive-sampling loop (`Algorithm.py` lines 2000-2092) on
explicit fuel; `none` = the fuel ran out before the loop exited. -/
def samplingLoop (opts : AdaptiveOptions) (v : ℕ → ℚ) :
    ℕ → AdaptiveState → Option AdaptiveState
  | fuel, st =>
    if samplingGuard opts st then
      match fuel with
      | 0 => none
      | f + 1 =>
        match samplingBody opts v st with
        | (st1, true) => some st1
        | (st1, false) => samplingLoop opts v f st1
    else
      some st

/-- Guard of the interaction-order sub-loop (`Algorithm.py` lines
1955-1956): `interaction_order_current <= interaction_order and
interaction_order_current <= min(order, interaction_order) and eps >
eps_target`. -/
def subLoopGuard (opts : AdaptiveOptions) (order ioc : ℕ) (eps : ℚ) : Bool :=
  (ioc ≤ opts.interaction_order) && (ioc ≤ min order opts.interaction_order) &&
    decide (opts.epsQ < eps)

/-- The interaction-order sub-loop (`Algorithm.py` lines 1955-2130).
`mAllNew` is `multi_indices_all_new`: the multi-indices newly admissible
at this order, computed once per outer iteration (lines 1944-1950).
At `order = order_start` no basis extension happens (line 1963); otherwise
the indices of interaction order `ioc` are appended to the basis and the
`extended_basis` flag is set (lines 1965-1990), or the sub-iteration is
skipped when there are none (lines 1971-1978).  Lines 1995-1998 then
initialize `add_samples` and `delta_eps` before the sampling loop. -/
def subLoop (opts : AdaptiveOptions) (v : ℕ → ℚ) (sfuel : ℕ) (order : ℕ)
    (mAllNew : List (List ℕ)) : ℕ → ℕ → AdaptiveState → Option AdaptiveState
  | fuel, ioc, st =>
    if subLoopGuard opts order ioc st.eps then
      match fuel with
      | 0 => none
      | f + 1 =>
        if order ≠ opts.order_start then
          let added := mAllNew.filter (fun a => countNonzero a == ioc)
          if added.isEmpty then
            -- no basis function to add: increase interaction order and continue
            subLoop opts v sfuel order mAllNew f (ioc + 1) st
          else
            let stx := { st with
              basis := st.basis ++ added
              extended_basis := true
              extLog := st.extLog ++ [(order, added)]
              add_samples := true
              delta_eps := deltaEpsTarget + 1 }
            match samplingLoop opts v sfuel stx with
            | none => none
            | some st2 => subLoop opts v sfuel order mAllNew f (ioc + 1) st2
        else
          let stA := { st with add_samples := true, delta_eps := deltaEpsTarget + 1 }
          match samplingLoop opts v sfuel stA with
          | none => none
          | some st2 => subLoop opts v sfuel order mAllNew f (ioc + 1) st2
    else
      some st

/-- The outer order loop (`Algorithm.py` lines 1938-2136): while
`eps > eps_target and order <= order_end`, compute the newly admissible
multi-indices (lines 1944-1950: the order-`order` index set minus the
rows already in the basis), run the interaction sub-loop, then reset
`interaction_order_current` to 1 and advance the order.  Returns the
final order together with the final state. -/
def outerLoop (opts : AdaptiveOptions) (gen : ℕ → List (List ℕ)) (v : ℕ → ℚ)
    (sfuel : ℕ) : ℕ → ℕ → AdaptiveState → Option (ℕ × AdaptiveState)
  | fuel, order, st =>
    if decide (opts.epsQ < st.eps) && (order ≤ opts.order_end) then
      match fuel with
      | 0 => none
      | f + 1 =>
        let mAllNew := (gen order).filter (fun a => decide (a ∉ st.basis))
        match subLoop opts v sfuel order mAllNew sfuel st.interaction_order_current st with
        | none => none
        | some st2 =>
          outerLoop opts gen v sfuel f (order + 1) { st2 with interaction_order_current := 1 }
    else
      some (order, st)

/-- The state after the initialization of `RegAdaptive.run`
(`Algorithm.py` lines 1889-1935): `eps = eps_target + 1`, `i_grid = 0`,
`first_iter = True`, `extended_basis = True` (line 1907), the initial
basis `basis0` built by the `Reg` constructor for `order_start`, the
initial grid of `ceil(matrix_ratio * n_basis)` points (line 1919,
`gradient_enhanced = False`), and `interaction_order_current =
min(interaction_order, order_start)` (line 1924). -/
def initState (opts : AdaptiveOptions) (basis0 : List (List ℕ)) : AdaptiveState :=
  { eps := opts.epsQ + 1,
    i_grid := 0,
    first_iter := true,
    extended_basis := true,
    add_samples := true,
    delta_eps := deltaEpsTarget + 1,
    eps_ref := 0,
    basis := basis0,
    n_grid := ceilToNat ((basis0.length : ℚ) * opts.matrixRatioQ),
    interaction_order_current := min opts.interaction_order opts.order_start,
    res := none,
    errorHist := [],
    vcount := 0,
    extLog := [] }

/-- What `RegAdaptive.run` returns: the gpc object (with its basis, grid
and error history — the final state), the final order, and the results
array (its row count). -/
structure RunResult where
  finalOrder : ℕ
  st : AdaptiveState
  nres : ℕ
deriving DecidableEq

/-- The exception Python raises at `coeffs = gpc.solve(results=res, ...)`
(`Algorithm.py` line 2141) when the loop body never ran and the local
`res` was never assigned. -/
def resUnboundMsg : String := "UnboundLocalError: local variable res referenced before assignment"

/-- `RegAdaptive.run` (`Algorithm.py` lines 1870-2169): initialization,
the outer order loop, and the final solve on the accumulated results;
`none` = the sampling loop ran out of fuel (the source would not have
terminated), `Except.error` = an exception propagates to the caller. -/
def regAdaptiveRun (opts : AdaptiveOptions) (gen : ℕ → List (List ℕ))
    (basis0 : List (List ℕ)) (v : ℕ → ℚ) (fuel : ℕ) :
    Option (Except String RunResult) :=
  match outerLoop opts gen v fuel fuel opts.order_start (initState opts basis0) with
  | none => none
  | some (orderF, st) =>
    match st.res with
    | none => some (Except.error resUnboundMsg)
    | some m => some (Except.ok { finalOrder := orderF, st := st, nres := m })

/-- Modelled from the spec: `get_multi_indices_max_order(dim, order)` of
`pygpc/misc.py` is imported by the sources but its file is not among the
staged sources.  Spec §4.2: with `order_norm = 1` it returns exactly the
multi-indices whose total degree is at most `order` (and for
`order_norm < 1` a subset of these).  This executable norm-1 instance is
used to instantiate the oracle `gen` in witnesses. -/
def get_multi_indices_max_order : ℕ → ℕ → List (List ℕ)
  | 0, _ => [[]]
  | d + 1, o =>
    (List.range (o + 1)).flatMap (fun i =>
      (get_multi_indices_max_order d (o - i)).map (fun t => i :: t))

/-- Invariant on the extension log: every recorded basis extension
happened at an order within `order_end` and added only multi-indices
admissible at that order. -/
def extLogOK (opts : AdaptiveOptions) (gen : ℕ → List (List ℕ))
    (log : List (ℕ × List (List ℕ))) : Prop :=
  ∀ e ∈ log, e.1 ≤ opts.order_end ∧ ∀ a ∈ e.2, a ∈ gen e.1

/-- A set of options with adaptive sampling enabled. -/
def demoOptsA : AdaptiveOptions :=
  { epsQ := 1, order_start := 0, order_end := 3, interaction_order := 2,
    matrixRatioQ := 2, adaptive_sampling := true }

/-- The same options with adaptive sampling disabled. -/
def demoOptsN : AdaptiveOptions :=
  { epsQ := 1, order_start := 0, order_end := 3, interaction_order := 2,
    matrixRatioQ := 2, adaptive_sampling := false }

/-- A loop state just after a basis extension. -/
def demoStE : AdaptiveState :=
  { eps := 2, i_grid := 3, first_iter := false, extended_basis := true,
    add_samples := true, delta_eps := 2, eps_ref := 1, basis := [[0], [1]],
    n_grid := 3, interaction_order_current := 1, res := some 3,
    errorHist := [1], vcount := 1, extLog := [] }

/-- A loop state in a later adaptive-sampling pass (no fresh extension). -/
def demoStG : AdaptiveState :=
  { eps := 2, i_grid := 3, first_iter := false, extended_basis := false,
    add_samples := true, delta_eps := 2, eps_ref := 1, basis := [[0], [1]],
    n_grid := 3, interaction_order_current := 1, res := some 3,
    errorHist := [1], vcount := 1, extLog := [] }

/-- A configuration whose `order_start` exceeds `order_end`. -/
def ceOpts : AdaptiveOptions :=
  { epsQ := 1, order_start := 1, order_end := 0, interaction_order := 1,
    matrixRatioQ := 2, adaptive_sampling := true }

/-- Options of a tiny convergent run: one order, one dimension. -/
def wOpts : AdaptiveOptions :=
  { epsQ := 1, order_start := 0, order_end := 0, interaction_order := 1,
    matrixRatioQ := 2, adaptive_sampling := true }

/-- Multi-index oracle of the witness run. -/
def wGen (o : ℕ) : List (List ℕ) := get_multi_indices_max_order 1 o

/-- Separated merge input: two exactly coincident points and one far
point. -/
def demoSep1 : List (List ℚ × ℚ) := [([0], 1), ([0], 2), ([5], 3)]

/-- A permutation of `demoSep1`. -/
def demoSep2 : List (List ℚ × ℚ) := [([0], 2), ([0], 1), ([5], 3)]

/-! ## Theorems -/

/-! ## Claim theorems about the quadrature layer -/
/-- C8: `Grid.get_quadrature_patterson_1d` returns the fixed tabulated
knots and weights (of the requested length) exactly for node counts in
`{1, 3, 7, 15, 31}`, and raises a fatal `NotImplementedError` for every
other node count. -/
theorem patterson_ok_iff_tabulated (n : ℕ) :
    (n ∈ pattersonValidCounts →
      ∃ kw, get_quadrature_patterson_1d n = .ok kw ∧ kw.1.length = n ∧ kw.2.length = n) ∧
    (n ∉ pattersonValidCounts →
      get_quadrature_patterson_1d n = .error pattersonErrMsg) := by
  constructor
  · intro hmem
    simp only [pattersonValidCounts, List.mem_cons, List.mem_singleton] at hmem
    rcases hmem with h | h | h | h | h | h
    all_goals first
      | (subst h; exact ⟨_, rfl, by decide, by decide⟩)
      | exact absurd h (by simp)
  · intro hmem
    simp only [pattersonValidCounts, List.mem_cons, List.mem_singleton, not_or] at hmem
    obtain ⟨h1, h3, h7, h15, h31⟩ := hmem
    simp [get_quadrature_patterson_1d, h1, h3, h7, h15, h31]

/-- Witness for `patterson_ok_iff_tabulated`: a valid count (3) returns the
tabulated rule and an invalid count (5) raises. -/
theorem patterson_ok_iff_tabulated_witness :
    (3 ∈ pattersonValidCounts ∧
      ∃ kw, get_quadrature_patterson_1d 3 = .ok kw ∧ kw.1.length = 3 ∧ kw.2.length = 3) ∧
    (5 ∉ pattersonValidCounts ∧
      get_quadrature_patterson_1d 5 = .error pattersonErrMsg) :=
  ⟨⟨by decide, (patterson_ok_iff_tabulated 3).1 (by decide)⟩,
   ⟨by decide, (patterson_ok_iff_tabulated 5).2 (by decide)⟩⟩

/-- C7 (code bug): requesting the Clenshaw-Curtis rule with `n = 3` knots
(a count the sparse-grid order sequence `2^level + 1` itself produces, and
for which the spec promises ascending knots with weights summing to 2)
makes the slice assignment `c[::2, 0] = 2 / np.hstack((1, 1 - k * k))`
raise a numpy `ValueError`: the left side has 1 slot and the right side 2
values.  No knots or weights are returned at all. -/
theorem clenshaw_curtis_n3_broadcast_error :
    clenshaw_curtis_array_prep 3 = .error "ValueError: could not broadcast input array" := by
  rfl

/-- C9 (code bug): constructing a `TensorGrid` with an unrecognized
grid-type name does not raise: the source builds `AttributeError(...)` as
a bare expression without `raise`, keeps the empty knot and weight lists,
and the construction silently completes with an empty tensor grid
(`n_grid = 0`), regardless of the 1-D rules and of the requested node
count. -/
theorem tensor_grid_unknown_type_no_raise :
    ∀ (rules : String → ℕ → Except String (List ℚ × List ℚ)) (nd : ℕ),
      tensorGridInit rules ["not_a_grid_type"] [nd] =
        .ok { knots_dim_list := [[]], n_grid := 0 } := by
  intro rules nd
  rfl

/-! ## Claim theorems about random grids -/
/-- C10: a `RandomGrid` constructed with `seed = 0` behaves identically to
one constructed with `seed = None`: `if self.seed:` is falsy for `0`, so
the generator is not re-seeded and whole-block generation is used; the
produced grid state and the resulting random state coincide with the
unseeded construction for every problem, size, ambient random state and
id-supply position. -/
theorem random_grid_seed_zero_is_unseeded
    (seedStream : ℚ → ℕ → ℚ) (pdfs : List PdfSpec) (n : ℕ)
    (ambient : NpRandom) (uuid0 : ℕ) :
    mkRandomGrid seedStream pdfs n (some 0) ambient uuid0 =
      mkRandomGrid seedStream pdfs n none ambient uuid0 := by
  simp [mkRandomGrid, randomGridCoordsNorm, truthySeed]

/-- C3 counterexample: with the explicitly supplied seed `0`, a freshly
constructed grid of size `3` does NOT reproduce the size-`2` grid in its
first two points, even from the identical underlying random state —
because a zero seed is falsy, the whole-block (dimension-major) layout is
used and that layout depends on the grid size.  This falsifies the claim,
which quantifies over every explicitly supplied seed value. -/
theorem seeded_grid_prefix_fails_for_seed_zero :
    ((randomGridCoordsNorm demoSeedStream twoNormals 3 (some 0) countingState).1.take 2 ≠
      (randomGridCoordsNorm demoSeedStream twoNormals 2 (some 0) countingState).1) := by
  decide

/-- `sampleTransform` is injective in the drawn scalar. -/
theorem sampleTransform_injective (p : PdfSpec) (x y : ℚ)
    (h : sampleTransform p x = sampleTransform p y) : x = y := by
  cases p <;> simp [sampleTransform] at h <;> linarith

/-- C3 (amended): for every explicitly supplied NONZERO seed, the seeded
constructor draws one scalar at a time in grid-point-major then
dimension-minor order (entry `(i, d)` is the `i * dim + d`-th draw of the
freshly seeded stream), so the first `n` points of a freshly constructed
seeded grid of size `n + k` are identical to the points of a freshly
constructed seeded grid of size `n` with the same seed; and for problems
with at least two dimensions and `n ≥ 2` the point-by-point construction
differs from the unseeded whole-block construction on some underlying
random state.  (A seed of `0` is falsy and behaves as if no seed was
supplied.) -/
theorem seeded_random_grid_reproducible
    (seedStream : ℚ → ℕ → ℚ) (pdfs : List PdfSpec) (s : ℚ) (n k : ℕ)
    (ambient ambient2 : NpRandom) (hs : s ≠ 0) :
    (randomGridCoordsNorm seedStream pdfs n (some s) ambient).1 =
      pointwiseCoordsNorm pdfs n ⟨seedStream s, 0⟩ ∧
    (randomGridCoordsNorm seedStream pdfs (n + k) (some s) ambient).1.take n =
      (randomGridCoordsNorm seedStream pdfs n (some s) ambient2).1 ∧
    (2 ≤ pdfs.length → 2 ≤ n →
      ∃ r : NpRandom, pointwiseCoordsNorm pdfs n r ≠ blockwiseCoordsNorm pdfs n r) := by
  have htruthy : truthySeed (some s) = true := by simp [truthySeed, hs]
  refine ⟨?_, ?_, ?_⟩
  · simp [randomGridCoordsNorm, htruthy]
  · simp only [randomGridCoordsNorm, htruthy, if_true]
    unfold pointwiseCoordsNorm
    rw [← List.map_take, List.take_range, min_eq_left (Nat.le_add_right n k)]
  · intro hdim hn
    refine ⟨countingState, fun hEq => ?_⟩
    have h0 : (pointwiseCoordsNorm pdfs n countingState)[0]? =
        (blockwiseCoordsNorm pdfs n countingState)[0]? := by rw [hEq]
    rw [pointwiseCoordsNorm, blockwiseCoordsNorm, List.getElem?_map,
      List.getElem?_map, List.getElem?_range (show 0 < n by omega)] at h0
    have h0' : ((List.range pdfs.length).map (fun d =>
        sampleTransform (pdfAt pdfs d) (countingState.stream (countingState.pos + 0 * pdfs.length + d)))) =
        ((List.range pdfs.length).map (fun d =>
        sampleTransform (pdfAt pdfs d) (countingState.stream (countingState.pos + d * n + 0)))) := by
      simpa using h0
    have h1 : (((List.range pdfs.length).map (fun d =>
        sampleTransform (pdfAt pdfs d) (countingState.stream (countingState.pos + 0 * pdfs.length + d))))[1]?) =
        (((List.range pdfs.length).map (fun d =>
        sampleTransform (pdfAt pdfs d) (countingState.stream (countingState.pos + d * n + 0))))[1]?) := by
      rw [h0']
    rw [List.getElem?_map, List.getElem?_map,
      List.getElem?_range (show 1 < pdfs.length by omega)] at h1
    have h2 : sampleTransform (pdfAt pdfs 1) (countingState.stream (countingState.pos + 0 * pdfs.length + 1)) =
        sampleTransform (pdfAt pdfs 1) (countingState.stream (countingState.pos + 1 * n + 0)) := by
      simpa using h1
    have h3 := sampleTransform_injective _ _ _ h2
    have h4 : ((0 * pdfs.length + 1 : ℕ) : ℚ) = ((1 * n + 0 : ℕ) : ℚ) := by
      simpa [countingState] using h3
    have h5 : 0 * pdfs.length + 1 = 1 * n + 0 := Nat.cast_injective h4
    omega

/-- Witness for `seeded_random_grid_reproducible` at seed `1`, two normal
dimensions, sizes `2` and `2 + 1`. -/
theorem seeded_random_grid_reproducible_witness :
    (1 : ℚ) ≠ 0 ∧
    ((randomGridCoordsNorm demoSeedStream twoNormals 2 (some 1) countingState).1 =
        pointwiseCoordsNorm twoNormals 2 ⟨demoSeedStream 1, 0⟩ ∧
      (randomGridCoordsNorm demoSeedStream twoNormals (2 + 1) (some 1) countingState).1.take 2 =
        (randomGridCoordsNorm demoSeedStream twoNormals 2 (some 1) countingState).1 ∧
      (2 ≤ twoNormals.length → 2 ≤ 2 →
        ∃ r : NpRandom, pointwiseCoordsNorm twoNormals 2 r ≠ blockwiseCoordsNorm twoNormals 2 r)) :=
  ⟨by decide,
   seeded_random_grid_reproducible demoSeedStream twoNormals 1 2 1
     countingState countingState (by decide)⟩

/-- Length of the generated `coords_norm` block. -/
theorem randomGridCoordsNorm_length (seedStream : ℚ → ℕ → ℚ) (pdfs : List PdfSpec)
    (n : ℕ) (seed : Option ℚ) (ambient : NpRandom) :
    (randomGridCoordsNorm seedStream pdfs n seed ambient).1.length = n := by
  unfold randomGridCoordsNorm
  split <;> simp [pointwiseCoordsNorm, blockwiseCoordsNorm]

/-- Lengths of the arrays of a freshly constructed `RandomGrid`. -/
theorem mkRandomGrid_lengths (seedStream : ℚ → ℕ → ℚ) (pdfs : List PdfSpec)
    (n : ℕ) (seed : Option ℚ) (ambient : NpRandom) (uuid0 : ℕ) :
    (mkRandomGrid seedStream pdfs n seed ambient uuid0).1.coords.length = n ∧
    (mkRandomGrid seedStream pdfs n seed ambient uuid0).1.coords_norm.length = n ∧
    (mkRandomGrid seedStream pdfs n seed ambient uuid0).1.coords_id.length = n := by
  simp [mkRandomGrid, denormRows, randomGridCoordsNorm_length]

/-- C4: extending a `RandomGrid` to a strictly larger target size
generates exactly `new_total - n` new points and appends them: the first
`n` rows of `coords` and `coords_norm` and the first `n` ids are
unchanged and in the same order, `n_grid` becomes `new_total`, and
afterwards `len(coords) = len(coords_norm) = len(coords_id) = new_total`
(assuming the length invariant held before the call). -/
theorem extend_random_grid_appends (seedStream : ℚ → ℕ → ℚ) (pdfs : List PdfSpec)
    (g : RandomGridState) (new : ℕ) (seed : Option ℚ) (ambient : NpRandom)
    (hc : g.coords.length = g.n_grid)
    (hn : g.coords_norm.length = g.n_grid)
    (hi : g.coords_id.length = g.n_grid)
    (hlt : g.n_grid < new) :
    (extend_random_grid seedStream pdfs g new seed ambient).1.coords.take g.n_grid = g.coords ∧
    (extend_random_grid seedStream pdfs g new seed ambient).1.coords_norm.take g.n_grid = g.coords_norm ∧
    (extend_random_grid seedStream pdfs g new seed ambient).1.coords_id.take g.n_grid = g.coords_id ∧
    (extend_random_grid seedStream pdfs g new seed ambient).1.n_grid = new ∧
    (extend_random_grid seedStream pdfs g new seed ambient).1.coords.length = new ∧
    (extend_random_grid seedStream pdfs g new seed ambient).1.coords_norm.length = new ∧
    (extend_random_grid seedStream pdfs g new seed ambient).1.coords_id.length = new := by
  have hpos : (0 : ℤ) < (new : ℤ) - (g.n_grid : ℤ) := by omega
  have hm : ((new : ℤ) - (g.n_grid : ℤ)).toNat = new - g.n_grid := by omega
  obtain ⟨hl1, hl2, hl3⟩ := mkRandomGrid_lengths seedStream pdfs
    ((new : ℤ) - (g.n_grid : ℤ)).toNat seed ambient g.uuidCtr
  simp only [extend_random_grid, if_pos hpos]
  refine ⟨?_, ?_, ?_, ?_, ?_, ?_, ?_⟩
  · rw [← hc, List.take_left]
  · rw [← hn, List.take_left]
  · rw [← hi, List.take_left]
  · simp only [List.length_append, hc, hl1]; omega
  · simp only [List.length_append, hc, hl1]; omega
  · simp only [List.length_append, hn, hl2]; omega
  · simp only [List.length_append, hi, hl3]; omega

/-- Witness for `extend_random_grid_appends`: the concrete grid `demoGrid`
of size 2 extended to 3 points. -/
theorem extend_random_grid_appends_witness :
    (demoGrid.coords.length = demoGrid.n_grid ∧
     demoGrid.coords_norm.length = demoGrid.n_grid ∧
     demoGrid.coords_id.length = demoGrid.n_grid ∧
     demoGrid.n_grid < 3) ∧
    ((extend_random_grid demoSeedStream [.normal 0 1] demoGrid 3 none countingState).1.coords.take demoGrid.n_grid = demoGrid.coords ∧
     (extend_random_grid demoSeedStream [.normal 0 1] demoGrid 3 none countingState).1.coords_norm.take demoGrid.n_grid = demoGrid.coords_norm ∧
     (extend_random_grid demoSeedStream [.normal 0 1] demoGrid 3 none countingState).1.coords_id.take demoGrid.n_grid = demoGrid.coords_id ∧
     (extend_random_grid demoSeedStream [.normal 0 1] demoGrid 3 none countingState).1.n_grid = 3 ∧
     (extend_random_grid demoSeedStream [.normal 0 1] demoGrid 3 none countingState).1.coords.length = 3 ∧
     (extend_random_grid demoSeedStream [.normal 0 1] demoGrid 3 none countingState).1.coords_norm.length = 3 ∧
     (extend_random_grid demoSeedStream [.normal 0 1] demoGrid 3 none countingState).1.coords_id.length = 3) :=
  ⟨⟨rfl, rfl, rfl, by decide⟩,
   extend_random_grid_appends demoSeedStream [.normal 0 1] demoGrid 3 none countingState
     rfl rfl rfl (by decide)⟩

/-- C5 (code bug): extending a `RandomGrid` to a target size not larger
than the current size performs no mutation and does not raise — but it
also emits NO warning: the source evaluates
`Warning("No samples added to grid ... (n_grid_new < n_grid)")` as a bare
expression, constructing the exception object and immediately discarding
it, so nothing is signalled to the user.  Here: a size-2 grid "extended"
to 1 point is returned unchanged with an empty list of emitted
warnings. -/
theorem extend_random_grid_shrink_silent :
    extend_random_grid demoSeedStream [.normal 0 1] demoGrid 1 none countingState =
      (demoGrid, countingState, ([] : List String)) := by
  rfl

theorem ratAbs_eq_abs (x : ℚ) : ratAbs x = |x| := by
  unfold ratAbs
  split
  · rw [abs_of_neg]; assumption
  · rw [abs_of_nonneg]; linarith

theorem l1dist_self (p : List ℚ) : l1dist p p = 0 := by
  induction p with
  | nil => rfl
  | cons a t ih => simp [l1dist, ratAbs] at ih ⊢; exact ih

theorem firstKeys_mem (xs : List (List ℚ)) (a : List ℚ) :
    a ∈ firstKeys xs ↔ a ∈ xs := by
  induction xs using firstKeys.induct with
  | case1 => simp [firstKeys]
  | case2 x t ih =>
    rw [firstKeys]
    simp only [List.mem_cons, ih, List.mem_filter]
    constructor
    · rintro (rfl | ⟨h, _⟩)
      · exact Or.inl rfl
      · exact Or.inr h
    · rintro (rfl | h)
      · exact Or.inl rfl
      · by_cases hax : a = x
        · exact Or.inl hax
        · exact Or.inr ⟨h, by simp [hax]⟩

theorem firstKeys_nodup (xs : List (List ℚ)) : (firstKeys xs).Nodup := by
  induction xs using firstKeys.induct with
  | case1 => simp [firstKeys]
  | case2 x t ih =>
    rw [firstKeys]
    refine List.Nodup.cons (fun hx => ?_) ih
    have := (firstKeys_mem _ _).1 hx
    simp at this

/-- Under the separation hypothesis (points within the merge tolerance are
exactly coincident), the greedy merge loop produces exactly one entry per
distinct coordinate, in order of first occurrence, carrying the total
weight of that coordinate. -/
theorem mergePointsAux_canonical :
    ∀ (fuel : ℕ) (l : List (List ℚ × ℚ)), l.length ≤ fuel →
    (∀ p ∈ l.map Prod.fst, ∀ q ∈ l.map Prod.fst, l1dist p q < epsilonK → p = q) →
    mergePointsAux fuel l = (firstKeys (l.map Prod.fst)).map (fun p => (p, weightAt l p)) := by
  intro fuel
  induction fuel with
  | zero =>
    intro l hl _
    have : l = [] := List.length_eq_zero.1 (Nat.le_zero.1 hl)
    subst this
    simp [mergePointsAux, firstKeys]
  | succ f ihf =>
    intro l hl hsep
    cases l with
    | nil => simp [mergePointsAux, firstKeys]
    | cons pw rest =>
    have hmemf : pw.1 ∈ (pw :: rest).map Prod.fst := by simp
    have hcond : ∀ q ∈ rest, (decide (l1dist q.1 pw.1 < epsilonK)) = (decide (q.1 = pw.1)) := by
      intro q hq
      apply decide_eq_decide.mpr
      constructor
      · intro hlt
        exact hsep q.1 (List.mem_map.mpr ⟨q, List.mem_cons_of_mem _ hq, rfl⟩) pw.1 hmemf hlt
      · intro heq
        rw [heq, l1dist_self]
        norm_num [epsilonK]
    have hfar : rest.filter (fun q => !decide (l1dist q.1 pw.1 < epsilonK)) =
        rest.filter (fun q => !decide (q.1 = pw.1)) :=
      List.filter_congr (fun q hq => by rw [hcond q hq])
    have hlenf : (rest.filter (fun q => !decide (l1dist q.1 pw.1 < epsilonK))).length ≤ f := by
      have h1 := List.length_filter_le (fun q => !decide (l1dist q.1 pw.1 < epsilonK)) rest
      have h2 : rest.length + 1 ≤ f + 1 := by simpa using hl
      omega
    have hsepf : ∀ p ∈ (rest.filter (fun q => !decide (l1dist q.1 pw.1 < epsilonK))).map Prod.fst,
        ∀ q ∈ (rest.filter (fun q => !decide (l1dist q.1 pw.1 < epsilonK))).map Prod.fst,
        l1dist p q < epsilonK → p = q := by
      intro p hp q hq hlt
      obtain ⟨a, ha, rfl⟩ := List.mem_map.mp hp
      obtain ⟨b, hb, rfl⟩ := List.mem_map.mp hq
      exact hsep a.1
        (List.mem_map.mpr ⟨a, List.mem_cons_of_mem _ (List.mem_of_mem_filter ha), rfl⟩) b.1
        (List.mem_map.mpr ⟨b, List.mem_cons_of_mem _ (List.mem_of_mem_filter hb), rfl⟩) hlt
    have ihh := ihf _ hlenf hsepf
    rw [mergePointsAux, ihh, hfar]
    have hmapfst : (rest.filter (fun q => !decide (q.1 = pw.1))).map Prod.fst =
        (rest.map Prod.fst).filter (fun b => decide (b ≠ pw.1)) := by
      rw [List.filter_map]
      apply congrArg
      apply List.filter_congr
      intro q _
      simp [Function.comp]
    have hhead : pw.2 + ((rest.filter (fun q => decide (l1dist q.1 pw.1 < epsilonK))).map Prod.snd).sum =
        weightAt (pw :: rest) pw.1 := by
      rw [List.filter_congr hcond]
      simp [weightAt, List.filter_cons]
    have htailw : ∀ p ∈ firstKeys ((rest.map Prod.fst).filter (fun b => decide (b ≠ pw.1))),
        weightAt (rest.filter (fun q => !decide (q.1 = pw.1))) p = weightAt (pw :: rest) p := by
      intro p hp
      have hpm := (firstKeys_mem _ _).1 hp
      have hpne : p ≠ pw.1 := by
        have := List.of_mem_filter hpm
        simpa using this
      unfold weightAt
      rw [List.filter_filter]
      have h1 : rest.filter (fun a => decide (a.1 = p) && !decide (a.1 = pw.1)) =
          rest.filter (fun a => decide (a.1 = p)) := by
        apply List.filter_congr
        intro a _
        by_cases hap : a.1 = p
        · have : a.1 ≠ pw.1 := by rw [hap]; exact hpne
          simp [hap, this, hpne]
        · simp [hap]
      have h2 : (pw :: rest).filter (fun a => decide (a.1 = p)) =
          rest.filter (fun a => decide (a.1 = p)) := by
        rw [List.filter_cons]
        have : (decide (pw.1 = p)) = false := by
          simp only [decide_eq_false_iff_not]
          intro h
          exact hpne h.symm
        simp [this]
      rw [h1, h2]
    calc (pw.1, pw.2 + ((rest.filter (fun q => decide (l1dist q.1 pw.1 < epsilonK))).map Prod.snd).sum) ::
          (firstKeys ((rest.filter (fun q => !decide (q.1 = pw.1))).map Prod.fst)).map
            (fun p => (p, weightAt (rest.filter (fun q => !decide (q.1 = pw.1))) p))
        = (pw.1, weightAt (pw :: rest) pw.1) ::
          (firstKeys ((rest.map Prod.fst).filter (fun b => decide (b ≠ pw.1)))).map
            (fun p => (p, weightAt (pw :: rest) p)) := by
          rw [hhead, hmapfst]
          exact congrArg _ (List.map_congr_left (fun p hp => by rw [htailw p hp]))
      _ = (firstKeys ((pw :: rest).map Prod.fst)).map (fun p => (p, weightAt (pw :: rest) p)) := by
          rw [List.map_cons, firstKeys, List.map_cons]

/-- `mergePoints` in canonical form under the separation hypothesis. -/
theorem mergePoints_canonical (l : List (List ℚ × ℚ))
    (hsep : ∀ p ∈ l.map Prod.fst, ∀ q ∈ l.map Prod.fst, l1dist p q < epsilonK → p = q) :
    mergePoints l = (firstKeys (l.map Prod.fst)).map (fun p => (p, weightAt l p)) :=
  mergePointsAux_canonical l.length l le_rfl hsep

/-- C6 counterexample: the surviving point set of the merge DOES depend on
the enumeration order.  Three collinear 1-D points `0`, `6e-7`, `12e-7`
(unit weights) form a chain under the `1e-6` tolerance: enumerated in
ascending order the merge produces two surviving points (`0` with weight 2
and `12e-7` with weight 1), while the permutation that starts with the
middle point produces a single surviving point (`6e-7` with weight 3). -/
theorem sparse_merge_order_dependent :
    ([(([0] : List ℚ), (1 : ℚ)), ([6/10000000], 1), ([12/10000000], 1)].Perm
      [(([6/10000000] : List ℚ), (1 : ℚ)), ([0], 1), ([12/10000000], 1)]) ∧
    (((calc_coords_weights 1 [(([0] : List ℚ), (1 : ℚ)), ([6/10000000], 1), ([12/10000000], 1)]).map Prod.fst : Multiset (List ℚ)) ≠
      ((calc_coords_weights 1 [(([6/10000000] : List ℚ), (1 : ℚ)), ([0], 1), ([12/10000000], 1)]).map Prod.fst : Multiset (List ℚ))) := by
  constructor
  · exact List.Perm.swap _ _ _
  · have hA : calc_coords_weights 1 [(([0] : List ℚ), (1 : ℚ)), ([6/10000000], 1), ([12/10000000], 1)] =
        [([0], 1), ([12/10000000], 1/2)] := by
      norm_num [calc_coords_weights, mergePoints, mergePointsAux, l1dist, ratAbs, epsilonK, epsilonW]
    have hB : calc_coords_weights 1 [(([6/10000000] : List ℚ), (1 : ℚ)), ([0], 1), ([12/10000000], 1)] =
        [([6/10000000], 3/2)] := by
      norm_num [calc_coords_weights, mergePoints, mergePointsAux, l1dist, ratAbs, epsilonK, epsilonW]
    rw [hA, hB]
    intro h
    have hcard := congrArg Multiset.card h
    simp at hcard

/-- C6 (amended): coincident points are merged into a single point whose
weight is the sum of the group's weights, and every merged point whose
weight magnitude is below `1e-8` scaled by `2^-dim` is discarded by the
weight filter; and — provided the points are separated, i.e. points within
the `epsilon_k` tolerance of each other are exactly coincident (no chained
near-coincidences) — the surviving point set does not depend on the order
in which level combinations are enumerated. -/
theorem sparse_merge_amended (dim : ℕ) (l1 l2 : List (List ℚ × ℚ))
    (hdim : 1 ≤ dim)
    (hsep : ∀ p ∈ l1.map Prod.fst, ∀ q ∈ l1.map Prod.fst, l1dist p q < epsilonK → p = q)
    (hperm : l1.Perm l2) :
    ((mergePoints l1).map Prod.fst).Nodup ∧
    (∀ pw ∈ mergePoints l1, pw.2 = weightAt l1 pw.1) ∧
    (∀ pw ∈ mergePoints l1, ratAbs pw.2 < 1 / 100000000 * (1 / 2 ^ dim) →
      pw ∉ (mergePoints l1).filter (fun q => decide (epsilonW dim < ratAbs q.2))) ∧
    ((calc_coords_weights dim l1 : Multiset (List ℚ × ℚ)) =
      (calc_coords_weights dim l2 : Multiset (List ℚ × ℚ))) := by
  have hmemiff : ∀ a : List ℚ, a ∈ l1.map Prod.fst ↔ a ∈ l2.map Prod.fst :=
    fun a => (hperm.map Prod.fst).mem_iff
  have hsep2 : ∀ p ∈ l2.map Prod.fst, ∀ q ∈ l2.map Prod.fst, l1dist p q < epsilonK → p = q := by
    intro p hp q hq hlt
    exact hsep p ((hmemiff p).2 hp) q ((hmemiff q).2 hq) hlt
  have hcan1 := mergePoints_canonical l1 hsep
  have hcan2 := mergePoints_canonical l2 hsep2
  refine ⟨?_, ?_, ?_, ?_⟩
  · rw [hcan1, List.map_map]
    have : (Prod.fst ∘ fun p => (p, weightAt l1 p)) = id := by
      funext p; rfl
    rw [this, List.map_id]
    exact firstKeys_nodup _
  · intro pw hpw
    rw [hcan1] at hpw
    obtain ⟨p, _, rfl⟩ := List.mem_map.mp hpw
    rfl
  · intro pw hpw hsmall hmem
    have hbig := List.of_mem_filter hmem
    simp only [decide_eq_true_eq] at hbig
    have hdq : (0 : ℚ) < (dim : ℚ) := by
      have : (0 : ℕ) < dim := hdim
      exact_mod_cast this
    have hd2 : (dim : ℚ) ≤ 2 ^ dim := by
      have h := (Nat.lt_two_pow dim).le
      calc (dim : ℚ) ≤ ((2 ^ dim : ℕ) : ℚ) := by exact_mod_cast h
        _ = 2 ^ dim := by push_cast; ring
    have hkey : (1 : ℚ) / 100000000 * (1 / 2 ^ dim) ≤ epsilonW dim := by
      rw [epsilonW, div_eq_mul_inv]
      have hmono : (1 : ℚ) / 2 ^ dim ≤ ((dim : ℚ))⁻¹ := by
        rw [← one_div]
        exact one_div_le_one_div_of_le hdq hd2
      have hpos : (0 : ℚ) ≤ 1 / 100000000 := by norm_num
      exact mul_le_mul_of_nonneg_left hmono hpos
    have : epsilonW dim < epsilonW dim := lt_of_lt_of_le (lt_of_lt_of_le hbig (le_of_lt hsmall)) hkey
    exact lt_irrefl _ this
  · have hw : ∀ p : List ℚ, weightAt l1 p = weightAt l2 p := by
      intro p
      exact ((hperm.filter (fun q => decide (q.1 = p))).map Prod.snd).sum_eq
    have hkperm : (firstKeys (l1.map Prod.fst)).Perm (firstKeys (l2.map Prod.fst)) := by
      rw [List.perm_ext_iff_of_nodup (firstKeys_nodup _) (firstKeys_nodup _)]
      intro a
      rw [firstKeys_mem, firstKeys_mem]
      exact hmemiff a
    have hmergePerm : (mergePoints l1).Perm (mergePoints l2) := by
      rw [hcan1, hcan2]
      have hfun : (fun p => (p, weightAt l2 p)) = (fun p => (p, weightAt l1 p)) := by
        funext p; rw [hw p]
      rw [hfun]
      exact hkperm.map _
    have hccw : (calc_coords_weights dim l1).Perm (calc_coords_weights dim l2) := by
      unfold calc_coords_weights
      exact (hmergePerm.filter (fun q => decide (epsilonW dim < ratAbs q.2))).map
        (fun q => (q.1, q.2 / 2 ^ dim))
    exact Multiset.coe_eq_coe.mpr hccw

/-- C2: the target grid size of one pass of the adaptive-sampling loop.
With adaptive sampling enabled: if the basis was just extended the target
equals the current grid size, and the pass generates no new sample points
(the grid size is unchanged); otherwise, past the first iteration, the
target is `ceil(n_grid + 0.05 * n_basis)`.  With adaptive sampling
disabled the target is `ceil(matrix_ratio * n_basis)`. -/
theorem adaptive_sampling_target_size (opts : AdaptiveOptions) (v : ℕ → ℚ) (st : AdaptiveState) :
    (opts.adaptive_sampling = true → st.extended_basis = true →
      nGridNew opts st = st.n_grid ∧
      extendGridTo st.n_grid (nGridNew opts st) = st.n_grid ∧
      (samplingBody opts v st).1.n_grid = st.n_grid) ∧
    (opts.adaptive_sampling = true → st.extended_basis = false → st.first_iter = false →
      nGridNew opts st = ceilToNat ((st.n_grid : ℚ) + deltaSamples * (st.basis.length : ℚ))) ∧
    (opts.adaptive_sampling = false →
      nGridNew opts st = ceilToNat ((st.basis.length : ℚ) * opts.matrixRatioQ)) := by
  refine ⟨?_, ?_, ?_⟩
  · intro ha he
    have h1 : nGridNew opts st = st.n_grid := by
      simp [nGridNew, ha, he]
    have h2 : extendGridTo st.n_grid (nGridNew opts st) = st.n_grid := by
      rw [h1]
      simp [extendGridTo]
    refine ⟨h1, h2, ?_⟩
    unfold samplingBody
    simp only [ha, Bool.not_true]
    split_ifs <;> simp_all [extendGridTo, nGridNew, ha, he]
  · intro ha he hf
    simp [nGridNew, ha, he, hf]
  · intro ha
    simp [nGridNew, ha]

/-- Witness for `adaptive_sampling_target_size` at concrete options and
states for each of the three branches. -/
theorem adaptive_sampling_target_size_witness :
    (demoOptsA.adaptive_sampling = true ∧ demoStE.extended_basis = true ∧
      (nGridNew demoOptsA demoStE = demoStE.n_grid ∧
       extendGridTo demoStE.n_grid (nGridNew demoOptsA demoStE) = demoStE.n_grid ∧
       (samplingBody demoOptsA (fun _ => 0) demoStE).1.n_grid = demoStE.n_grid)) ∧
    (demoStG.extended_basis = false ∧ demoStG.first_iter = false ∧
      nGridNew demoOptsA demoStG =
        ceilToNat ((demoStG.n_grid : ℚ) + deltaSamples * (demoStG.basis.length : ℚ))) ∧
    (demoOptsN.adaptive_sampling = false ∧
      nGridNew demoOptsN demoStG =
        ceilToNat ((demoStG.basis.length : ℚ) * demoOptsN.matrixRatioQ)) :=
  ⟨⟨rfl, rfl, (adaptive_sampling_target_size demoOptsA (fun _ => 0) demoStE).1 rfl rfl⟩,
   ⟨rfl, rfl, (adaptive_sampling_target_size demoOptsA (fun _ => 0) demoStG).2.1 rfl rfl rfl⟩,
   ⟨rfl, (adaptive_sampling_target_size demoOptsN (fun _ => 0) demoStG).2.2 rfl⟩⟩

set_option maxHeartbeats 1000000 in
/-- One sampling pass never touches the basis, the extension log or the
interaction order, and never un-assigns the results array. -/
theorem samplingBody_frame (opts : AdaptiveOptions) (v : ℕ → ℚ) (st : AdaptiveState) :
    (samplingBody opts v st).1.basis = st.basis ∧
    (samplingBody opts v st).1.extLog = st.extLog ∧
    (st.res.isSome = true → (samplingBody opts v st).1.res.isSome = true) := by
  cases hA : opts.adaptive_sampling <;>
    (unfold samplingBody; simp only [hA, Bool.not_true, Bool.not_false]) <;>
    split_ifs <;> simp_all

set_option maxHeartbeats 1000000 in
/-- A sampling pass that extends the grid assigns the results array. -/
theorem samplingBody_res_establish (opts : AdaptiveOptions) (v : ℕ → ℚ) (st : AdaptiveState)
    (hig : st.i_grid < nGridNew opts st) :
    (samplingBody opts v st).1.res.isSome = true := by
  cases hA : opts.adaptive_sampling <;>
    (unfold samplingBody; simp only [hA, Bool.not_true, Bool.not_false]) <;>
    split_ifs <;> simp_all [nGridNew, hA]

/-- The sampling loop preserves basis, extension log and the
already-assigned results array. -/
theorem samplingLoop_frame (opts : AdaptiveOptions) (v : ℕ → ℚ) :
    ∀ (fuel : ℕ) (st st2 : AdaptiveState), samplingLoop opts v fuel st = some st2 →
    st2.basis = st.basis ∧ st2.extLog = st.extLog ∧
    (st.res.isSome = true → st2.res.isSome = true) := by
  intro fuel
  induction fuel with
  | zero =>
    intro st st2 h
    rw [samplingLoop] at h
    by_cases hg : samplingGuard opts st = true
    · rw [if_pos hg] at h
      simp at h
    · rw [if_neg hg] at h
      cases h
      exact ⟨rfl, rfl, id⟩
  | succ f ih =>
    intro st st2 h
    rw [samplingLoop] at h
    by_cases hg : samplingGuard opts st = true
    case neg =>
      rw [if_neg hg] at h
      cases h
      exact ⟨rfl, rfl, id⟩
    case pos =>
      rw [if_pos hg] at h
      obtain ⟨hb1, hb2, hb3⟩ := samplingBody_frame opts v st
      rcases hbody : samplingBody opts v st with ⟨st1, brk⟩
      rw [hbody] at h hb1 hb2 hb3
      cases brk with
      | true =>
        simp only at h
        cases h
        exact ⟨hb1, hb2, hb3⟩
      | false =>
        simp only at h
        obtain ⟨h1, h2, h3⟩ := ih st1 st2 h
        exact ⟨h1.trans hb1, h2.trans hb2, fun hr => h3 (hb3 hr)⟩

/-- When the sampling loop is entered with a grid-extension pending
(`i_grid < n_grid_new`), the state it returns has the results array
assigned. -/
theorem samplingLoop_res_establish (opts : AdaptiveOptions) (v : ℕ → ℚ)
    (fuel : ℕ) (st st2 : AdaptiveState)
    (hguard : samplingGuard opts st = true)
    (hig : st.i_grid < nGridNew opts st)
    (h : samplingLoop opts v fuel st = some st2) : st2.res.isSome = true := by
  cases fuel with
  | zero =>
    rw [samplingLoop, if_pos hguard] at h
    exact absurd h (by simp)
  | succ f =>
    rw [samplingLoop, if_pos hguard] at h
    have hres := samplingBody_res_establish opts v st hig
    rcases hbody : samplingBody opts v st with ⟨st1, brk⟩
    rw [hbody] at h hres
    cases brk with
    | true =>
      simp only at h
      cases h
      exact hres
    | false =>
      simp only at h
      exact (samplingLoop_frame opts v f st1 st2 h).2.2 hres

/-- The interaction sub-loop preserves an assigned results array, and
extends the extension log only with entries recorded at its own order
with indices from `multi_indices_all_new`. -/
theorem subLoop_post (opts : AdaptiveOptions) (v : ℕ → ℚ) (sfuel order : ℕ)
    (mAllNew : List (List ℕ)) (gen : ℕ → List (List ℕ))
    (hord : order ≤ opts.order_end)
    (hsub : ∀ a ∈ mAllNew, a ∈ gen order) :
    ∀ (fuel ioc : ℕ) (st st2 : AdaptiveState),
    subLoop opts v sfuel order mAllNew fuel ioc st = some st2 →
    (st.res.isSome = true → st2.res.isSome = true) ∧
    (extLogOK opts gen st.extLog → extLogOK opts gen st2.extLog) := by
  intro fuel
  induction fuel with
  | zero =>
    intro ioc st st2 h
    rw [subLoop] at h
    by_cases hg : subLoopGuard opts order ioc st.eps = true
    · rw [if_pos hg] at h
      simp at h
    · rw [if_neg hg] at h
      cases h
      exact ⟨id, id⟩
  | succ f ih =>
    intro ioc st st2 h
    rw [subLoop] at h
    by_cases hg : subLoopGuard opts order ioc st.eps = true
    case neg =>
      rw [if_neg hg] at h
      cases h
      exact ⟨id, id⟩
    case pos =>
      rw [if_pos hg] at h
      try simp only at h
      by_cases ho : order ≠ opts.order_start
      case pos =>
        rw [if_pos ho] at h
        by_cases he : ((mAllNew.filter (fun a => countNonzero a == ioc)).isEmpty) = true
        case pos =>
          rw [if_pos he] at h
          exact ih (ioc + 1) st st2 h
        case neg =>
          rw [if_neg he] at h
          try simp only at h
          rcases hsl : samplingLoop opts v sfuel
              { st with
                basis := st.basis ++ mAllNew.filter (fun a => countNonzero a == ioc)
                extended_basis := true
                extLog := st.extLog ++ [(order, mAllNew.filter (fun a => countNonzero a == ioc))]
                add_samples := true
                delta_eps := deltaEpsTarget + 1 } with hnone | stm
          · rw [hsl] at h
            simp at h
          · rw [hsl] at h
            try simp only at h
            obtain ⟨hm1, hm2, hm3⟩ := samplingLoop_frame opts v sfuel _ stm hsl
            obtain ⟨hr, hl⟩ := ih (ioc + 1) stm st2 h
            constructor
            · intro hsome
              exact hr (hm3 hsome)
            · intro hok
              apply hl
              rw [hm2]
              intro e hee
              rcases List.mem_append.mp hee with hold | hnew
              · exact hok e hold
              · have : e = (order, mAllNew.filter (fun a => countNonzero a == ioc)) := by
                  simpa using hnew
                subst this
                refine ⟨hord, ?_⟩
                intro a ha
                exact hsub a (List.mem_of_mem_filter ha)
      case neg =>
        rw [if_neg ho] at h
        try simp only at h
        rcases hsl : samplingLoop opts v sfuel
            { st with add_samples := true, delta_eps := deltaEpsTarget + 1 } with hnone | stm
        · rw [hsl] at h
          simp at h
        · rw [hsl] at h
          try simp only at h
          obtain ⟨hm1, hm2, hm3⟩ := samplingLoop_frame opts v sfuel _ stm hsl
          obtain ⟨hr, hl⟩ := ih (ioc + 1) stm st2 h
          constructor
          · intro hsome
            exact hr (hm3 hsome)
          · intro hok
            apply hl
            rw [hm2]
            exact hok

/-- positivity of `int(np.ceil(x))` for positive `x`. -/
theorem ceilToNat_pos (x : ℚ) (hx : 0 < x) : 0 < ceilToNat x := by
  unfold ceilToNat
  have h1 : (0 : ℤ) < Int.ceil x := Int.ceil_pos.mpr hx
  omega

/-- The interaction sub-loop never un-assigns the results array. -/
theorem subLoop_res_mono (opts : AdaptiveOptions) (v : ℕ → ℚ) (sfuel order : ℕ)
    (mAllNew : List (List ℕ)) :
    ∀ (fuel ioc : ℕ) (st st2 : AdaptiveState),
    subLoop opts v sfuel order mAllNew fuel ioc st = some st2 →
    st.res.isSome = true → st2.res.isSome = true := by
  intro fuel
  induction fuel with
  | zero =>
    intro ioc st st2 h
    rw [subLoop] at h
    by_cases hg : subLoopGuard opts order ioc st.eps = true
    · rw [if_pos hg] at h
      simp at h
    · rw [if_neg hg] at h
      cases h
      exact id
  | succ f ih =>
    intro ioc st st2 h
    rw [subLoop] at h
    by_cases hg : subLoopGuard opts order ioc st.eps = true
    case neg =>
      rw [if_neg hg] at h
      cases h
      exact id
    case pos =>
      rw [if_pos hg] at h
      try simp only at h
      by_cases ho : order ≠ opts.order_start
      case pos =>
        rw [if_pos ho] at h
        by_cases he : ((mAllNew.filter (fun a => countNonzero a == ioc)).isEmpty) = true
        case pos =>
          rw [if_pos he] at h
          exact ih (ioc + 1) st st2 h
        case neg =>
          rw [if_neg he] at h
          try simp only at h
          rcases hsl : samplingLoop opts v sfuel
              { st with
                basis := st.basis ++ mAllNew.filter (fun a => countNonzero a == ioc)
                extended_basis := true
                extLog := st.extLog ++ [(order, mAllNew.filter (fun a => countNonzero a == ioc))]
                add_samples := true
                delta_eps := deltaEpsTarget + 1 } with hnone | stm
          · rw [hsl] at h
            simp at h
          · rw [hsl] at h
            try simp only at h
            intro hsome
            exact ih (ioc + 1) stm st2 h
              ((samplingLoop_frame opts v sfuel _ stm hsl).2.2 hsome)
      case neg =>
        rw [if_neg ho] at h
        try simp only at h
        rcases hsl : samplingLoop opts v sfuel
            { st with add_samples := true, delta_eps := deltaEpsTarget + 1 } with hnone | stm
        · rw [hsl] at h
          simp at h
        · rw [hsl] at h
          try simp only at h
          intro hsome
          exact ih (ioc + 1) stm st2 h
            ((samplingLoop_frame opts v sfuel _ stm hsl).2.2 hsome)

/-- Entering the sub-loop at `order_start` with a fresh extended basis, an
empty evaluation backlog (`i_grid = 0`) and a non-empty grid assigns the
results array. -/
theorem subLoop_entry_res (opts : AdaptiveOptions) (v : ℕ → ℚ) (sfuel : ℕ)
    (mAllNew : List (List ℕ)) (fuel ioc : ℕ) (st st2 : AdaptiveState)
    (hext : st.extended_basis = true) (hig : st.i_grid = 0)
    (hpos : 0 < st.n_grid)
    (hposb : 0 < ceilToNat ((st.basis.length : ℚ) * opts.matrixRatioQ))
    (hguard : subLoopGuard opts opts.order_start ioc st.eps = true)
    (h : subLoop opts v sfuel opts.order_start mAllNew fuel ioc st = some st2) :
    st2.res.isSome = true := by
  cases fuel with
  | zero =>
    rw [subLoop, if_pos hguard] at h
    simp at h
  | succ f =>
    rw [subLoop, if_pos hguard] at h
    try simp only at h
    rw [if_neg (by simp)] at h
    set stA : AdaptiveState := { st with add_samples := true, delta_eps := deltaEpsTarget + 1 } with hA
    have hgq : opts.epsQ < st.eps := by
      have h2 := hguard
      simp only [subLoopGuard, Bool.and_eq_true, decide_eq_true_eq] at h2
      exact h2.2
    have hsg : samplingGuard opts stA = true := by
      simp only [samplingGuard, hA, Bool.and_eq_true, decide_eq_true_eq]
      exact ⟨⟨trivial, lt_add_one deltaEpsTarget⟩, hgq⟩
    have hngn : stA.i_grid < nGridNew opts stA := by
      have higA : stA.i_grid = 0 := hig
      rw [higA]
      cases hAd : opts.adaptive_sampling with
      | true =>
        have hh : nGridNew opts stA = stA.n_grid := by
          simp [nGridNew, hAd, hA, hext]
        rw [hh]
        exact hpos
      | false =>
        have hh : nGridNew opts stA = ceilToNat ((stA.basis.length : ℚ) * opts.matrixRatioQ) := by
          simp [nGridNew, hAd]
        rw [hh]
        exact hposb
    rcases hsl : samplingLoop opts v sfuel stA with hnone | stm
    · rw [hsl] at h
      simp at h
    · rw [hsl] at h
      try simp only at h
      have hstm : stm.res.isSome = true :=
        samplingLoop_res_establish opts v sfuel stA stm hsg hngn hsl
      exact subLoop_res_mono opts v sfuel opts.order_start mAllNew f (ioc + 1) stm st2 h hstm

/-- The outer order loop: its exit satisfies the negated guard (the error
reached the tolerance or the order exceeded `order_end`), the final order
never passes `order_end + 1`, an assigned results array stays assigned,
and every recorded basis extension stays within `order_end` using only
indices admissible at its order. -/
theorem outerLoop_post (opts : AdaptiveOptions) (gen : ℕ → List (List ℕ)) (v : ℕ → ℚ)
    (sfuel : ℕ) :
    ∀ (fuel order : ℕ) (st : AdaptiveState) (r : ℕ × AdaptiveState),
    outerLoop opts gen v sfuel fuel order st = some r →
    (¬(opts.epsQ < r.2.eps ∧ r.1 ≤ opts.order_end)) ∧
    (order ≤ opts.order_end + 1 → r.1 ≤ opts.order_end + 1) ∧
    (st.res.isSome = true → r.2.res.isSome = true) ∧
    (extLogOK opts gen st.extLog → extLogOK opts gen r.2.extLog) := by
  intro fuel
  induction fuel with
  | zero =>
    intro order st r h
    rw [outerLoop] at h
    by_cases hg : (decide (opts.epsQ < st.eps) && decide (order ≤ opts.order_end)) = true
    · rw [if_pos hg] at h
      simp at h
    · rw [if_neg hg] at h
      cases h
      simp only [Bool.and_eq_true, decide_eq_true_eq] at hg
      exact ⟨hg, fun hle => hle, id, id⟩
  | succ f ih =>
    intro order st r h
    rw [outerLoop] at h
    by_cases hg : (decide (opts.epsQ < st.eps) && decide (order ≤ opts.order_end)) = true
    case neg =>
      rw [if_neg hg] at h
      cases h
      simp only [Bool.and_eq_true, decide_eq_true_eq] at hg
      exact ⟨hg, fun hle => hle, id, id⟩
    case pos =>
      rw [if_pos hg] at h
      try simp only at h
      have hord : order ≤ opts.order_end := by
        simp only [Bool.and_eq_true, decide_eq_true_eq] at hg
        exact hg.2
      rcases hsl : subLoop opts v sfuel order
          ((gen order).filter (fun a => decide (a ∉ st.basis)))
          sfuel st.interaction_order_current st with hnone | st2
      · rw [hsl] at h
        simp at h
      · rw [hsl] at h
        try simp only at h
        have hsub : ∀ a ∈ (gen order).filter (fun a => decide (a ∉ st.basis)), a ∈ gen order :=
          fun a ha => List.mem_of_mem_filter ha
        obtain ⟨hres2, hlog2⟩ := subLoop_post opts v sfuel order
          ((gen order).filter (fun a => decide (a ∉ st.basis))) gen hord hsub
          sfuel st.interaction_order_current st st2 hsl
        obtain ⟨ha, hb, hc, hd⟩ := ih (order + 1) { st2 with interaction_order_current := 1 } r h
        refine ⟨ha, fun _ => hb (by omega), ?_, ?_⟩
        · intro hsome
          exact hc (hres2 hsome)
        · intro hok
          exact hd (hlog2 hok)

/-- Every multi-index of the norm-1 admissible set has total degree at
most the requested order. -/
theorem get_multi_indices_max_order_sum_le :
    ∀ (d o : ℕ), ∀ a ∈ get_multi_indices_max_order d o, a.sum ≤ o := by
  intro d
  induction d with
  | zero =>
    intro o a ha
    simp only [get_multi_indices_max_order, List.mem_singleton] at ha
    subst ha
    simp
  | succ d ih =>
    intro o a ha
    simp only [get_multi_indices_max_order, List.mem_flatMap, List.mem_map,
      List.mem_range] at ha
    obtain ⟨i, hi, t, ht, rfl⟩ := ha
    have hts := ih (o - i) t ht
    simp only [List.sum_cons]
    omega

/-- C1 (amended): for every terminating run of `RegAdaptive.run` whose
configuration satisfies `order_start ≤ order_end` (so the outer loop body
executes at least once and the results array is assigned) and
`matrix_ratio > 0` with a non-empty initial basis: the run raises no
exception and returns the gpc object, coefficients and results; the outer
order loop has terminated exactly by the loop guard (final error at or
below `eps`, or final order beyond `order_end`, and the order counter
never passes `order_end + 1`); and the basis was never extended with
multi-indices of global (total) order greater than `order_end` — every
logged extension happened at an order at most `order_end` and, when the
multi-index oracle respects the total-degree bound (true of the q-norm
truncation with `order_max_norm ≤ 1`), added only indices of total degree
at most `order_end`. -/
theorem regadaptive_run_amended (opts : AdaptiveOptions) (gen : ℕ → List (List ℕ))
    (basis0 : List (List ℕ)) (v : ℕ → ℚ) (fuel : ℕ) (out : Except String RunResult)
    (hgen : ∀ o : ℕ, ∀ a ∈ gen o, a.sum ≤ o)
    (hb : basis0 ≠ [])
    (hr : 0 < opts.matrixRatioQ)
    (ho : opts.order_start ≤ opts.order_end)
    (hrun : regAdaptiveRun opts gen basis0 v fuel = some out) :
    ∃ r : RunResult, out = Except.ok r ∧
      (r.st.eps ≤ opts.epsQ ∨ opts.order_end < r.finalOrder) ∧
      r.finalOrder ≤ opts.order_end + 1 ∧
      (∀ e ∈ r.st.extLog, e.1 ≤ opts.order_end ∧ ∀ a ∈ e.2, a.sum ≤ opts.order_end) := by
  unfold regAdaptiveRun at hrun
  rcases houter : outerLoop opts gen v fuel fuel opts.order_start (initState opts basis0)
    with hnone | ⟨orderF, stF⟩
  · rw [houter] at hrun
    simp at hrun
  · rw [houter] at hrun
    try simp only at hrun
    -- the final state has the results array assigned
    have hb' : 0 < basis0.length := List.length_pos.mpr hb
    have hposb : 0 < ceilToNat ((basis0.length : ℚ) * opts.matrixRatioQ) := by
      apply ceilToNat_pos
      have : (0 : ℚ) < (basis0.length : ℚ) := by exact_mod_cast hb'
      positivity
    have hresF : stF.res.isSome = true := by
      have hguard0 : (decide (opts.epsQ < (initState opts basis0).eps) &&
          decide (opts.order_start ≤ opts.order_end)) = true := by
        simp only [Bool.and_eq_true, decide_eq_true_eq]
        exact ⟨lt_add_one opts.epsQ, ho⟩
      cases fuel with
      | zero =>
        rw [outerLoop, if_pos hguard0] at houter
        simp at houter
      | succ f =>
        rw [outerLoop, if_pos hguard0] at houter
        try simp only at houter
        rcases hsl : subLoop opts v (f + 1) opts.order_start
            ((gen opts.order_start).filter (fun a => decide (a ∉ (initState opts basis0).basis)))
            (f + 1) (initState opts basis0).interaction_order_current (initState opts basis0)
            with hnone2 | st2
        · rw [hsl] at houter
          simp at houter
        · rw [hsl] at houter
          try simp only at houter
          have hioguard : subLoopGuard opts opts.order_start
              (initState opts basis0).interaction_order_current
              (initState opts basis0).eps = true := by
            simp only [subLoopGuard, initState, Bool.and_eq_true, decide_eq_true_eq]
            refine ⟨⟨?_, ?_⟩, lt_add_one opts.epsQ⟩
            · simp [Nat.min_le_left]
            · simp only [Nat.min_comm opts.interaction_order opts.order_start]
              simp
          have hst2 : st2.res.isSome = true := by
            apply subLoop_entry_res opts v (f + 1) _ (f + 1)
              (initState opts basis0).interaction_order_current
              (initState opts basis0) st2 rfl rfl _ _ hioguard hsl
            · exact hposb
            · exact hposb
          have := (outerLoop_post opts gen v (f + 1) f (opts.order_start + 1)
            { st2 with interaction_order_current := 1 } (orderF, stF) houter).2.2.1
          exact this hst2
    rcases hres : stF.res with hresnone | m
    · rw [hres] at hresF
      simp at hresF
    · rw [hres] at hrun
      try simp only at hrun
      obtain ⟨hexit, hbound, _, hlog⟩ :=
        outerLoop_post opts gen v fuel fuel opts.order_start (initState opts basis0)
          (orderF, stF) houter
      refine ⟨{ finalOrder := orderF, st := stF, nres := m }, ?_, ?_, ?_, ?_⟩
      · exact Option.some.inj hrun |>.symm ▸ rfl
      · rcases lt_or_le opts.epsQ stF.eps with hlt | hle
        · right
          by_contra hc
          push_neg at hc
          have hc2 : orderF ≤ opts.order_end := hc
          exact hexit ⟨hlt, hc2⟩
        · left
          exact hle
      · show orderF ≤ opts.order_end + 1
        exact hbound (by omega)
      · intro e he
        have hlogF := hlog (by intro e2 he2; simp [initState] at he2) e he
        exact ⟨hlogF.1, fun a ha => le_trans (hgen e.1 a (hlogF.2 a ha)) hlogF.1⟩

set_option maxHeartbeats 2000000 in
/-- C1 counterexample: with `order_start = 1 > 0 = order_end` the run is
past `order_end` without having reached the target error (the error
starts at `eps + 1 > eps`), yet it RAISES: the outer loop body never
executes, the local `res` is never assigned, and the final
`gpc.solve(results=res, ...)` raises `UnboundLocalError` instead of
returning the gpc object, coefficients and results. -/
theorem regadaptive_run_raises_past_order_end :
    ceOpts.epsQ < ceOpts.epsQ + 1 ∧ ceOpts.order_end < ceOpts.order_start ∧
    regAdaptiveRun ceOpts (fun o => get_multi_indices_max_order 1 o) [[0]] (fun _ => 0) 5 =
      some (Except.error resUnboundMsg) := by
  refine ⟨by norm_num, by norm_num [ceOpts], ?_⟩
  norm_num [regAdaptiveRun, outerLoop, initState, ceOpts]

set_option maxHeartbeats 8000000 in
/-- Witness for `regadaptive_run_amended` on a concrete terminating run
(one outer iteration, one sampling pass, immediately convergent error). -/
theorem regadaptive_run_amended_witness :
    ((∀ o : ℕ, ∀ a ∈ wGen o, a.sum ≤ o) ∧ ([[0]] : List (List ℕ)) ≠ [] ∧
      0 < wOpts.matrixRatioQ ∧ wOpts.order_start ≤ wOpts.order_end) ∧
    (∃ out, regAdaptiveRun wOpts wGen [[0]] (fun _ => 0) 3 = some out ∧
      ∃ r : RunResult, out = Except.ok r ∧
        (r.st.eps ≤ wOpts.epsQ ∨ wOpts.order_end < r.finalOrder) ∧
        r.finalOrder ≤ wOpts.order_end + 1 ∧
        (∀ e ∈ r.st.extLog, e.1 ≤ wOpts.order_end ∧ ∀ a ∈ e.2, a.sum ≤ wOpts.order_end)) := by
  have hgen : ∀ o : ℕ, ∀ a ∈ wGen o, a.sum ≤ o := get_multi_indices_max_order_sum_le 1
  have hb : ([[0]] : List (List ℕ)) ≠ [] := by simp
  have hr : 0 < wOpts.matrixRatioQ := by norm_num [wOpts]
  have ho : wOpts.order_start ≤ wOpts.order_end := le_refl 0
  have hrun : regAdaptiveRun wOpts wGen [[0]] (fun _ => 0) 3 =
      some (Except.ok
        { finalOrder := 1,
          st := { eps := 0, i_grid := 2, first_iter := false, extended_basis := false,
                  add_samples := true, delta_eps := 11/10, eps_ref := 0, basis := [[0]],
                  n_grid := 2, interaction_order_current := 1, res := some 2,
                  errorHist := [0], vcount := 1, extLog := [] },
          nres := 2 }) := by
    norm_num [regAdaptiveRun, outerLoop, subLoop, samplingLoop, samplingBody,
      samplingGuard, subLoopGuard, nGridNew, extendGridTo, initState, ceilToNat,
      deltaEpsTarget, deltaSamples, histLast, histPrev, countNonzero, wOpts, wGen,
      get_multi_indices_max_order]
    decide
  exact ⟨⟨hgen, hb, hr, ho⟩,
    ⟨_, hrun, regadaptive_run_amended wOpts wGen [[0]] (fun _ => 0) 3 _ hgen hb hr ho hrun⟩⟩

/-- Witness for `sparse_merge_amended` on the separated three-point
input `demoSep1` and its permutation `demoSep2` in one dimension. -/
theorem sparse_merge_amended_witness :
    (1 ≤ 1 ∧
      (∀ p ∈ demoSep1.map Prod.fst, ∀ q ∈ demoSep1.map Prod.fst,
        l1dist p q < epsilonK → p = q) ∧
      demoSep1.Perm demoSep2) ∧
    (((mergePoints demoSep1).map Prod.fst).Nodup ∧
      (∀ pw ∈ mergePoints demoSep1, pw.2 = weightAt demoSep1 pw.1) ∧
      (∀ pw ∈ mergePoints demoSep1, ratAbs pw.2 < 1 / 100000000 * (1 / 2 ^ 1) →
        pw ∉ (mergePoints demoSep1).filter (fun q => decide (epsilonW 1 < ratAbs q.2))) ∧
      ((calc_coords_weights 1 demoSep1 : Multiset (List ℚ × ℚ)) =
        (calc_coords_weights 1 demoSep2 : Multiset (List ℚ × ℚ)))) := by
  have hsepPf : ∀ p ∈ demoSep1.map Prod.fst, ∀ q ∈ demoSep1.map Prod.fst,
      l1dist p q < epsilonK → p = q := by
    intro p hp q hq hlt
    simp only [demoSep1, List.map_cons, List.map_nil, List.mem_cons,
      List.not_mem_nil, or_false] at hp hq
    rcases hp with rfl | rfl | rfl <;> rcases hq with rfl | rfl | rfl <;>
      first
        | rfl
        | (exfalso; norm_num [l1dist, ratAbs, epsilonK] at hlt)
  have hperm : demoSep1.Perm demoSep2 := List.Perm.swap _ _ _
  exact ⟨⟨le_rfl, hsepPf, hperm⟩,
    sparse_merge_amended 1 demoSep1 demoSep2 le_rfl hsepPf hperm⟩
